import Mathlib

/-!
Shallow embedding of the ppmdiff program (src/ppmdiff.py, src/utility.py):
a P3 plain-text pixmap decoder and a per-pixel diff engine.

Modelling conventions:
* A text input stream is a list of lines (each line without its trailing
  newline); `readline` on an exhausted stream yields the empty string.
* An output text stream is the list of lines printed to it, in order; a
  `print(..., end=..)` call followed by a newline-terminated `print` to the
  same stream contributes a single line, as in Python.
* Python exceptions become `Except` / explicit error fields.  The Python
  expressions `idx // width` and `idx % width` are floor division and floor
  remainder (`Int.fdiv` / `Int.fmod`); division by zero, which raises
  `ZeroDivisionError` in Python, is modelled by a dedicated error outcome.
* `int(s)` on a string is modelled by `pyInt`, covering the CPython decimal
  syntax for the ASCII strings this program feeds it: optional sign, digits
  with single underscores allowed between digits.
-/

namespace PpmDiff

/-- Modelled from the spec: the `data` module is not among the source files.
Header value type: width, height and maximum color value of a P3 image.
Two headers are equal iff all three fields match. -/
structure Header where
  width : Int
  height : Int
  max_color : Int
deriving DecidableEq, Repr

/-- Modelled from the spec: the `data` module is not among the source files.
Pixel value type: red, green and blue channel values.
Two pixels are equal iff all three channels match. -/
structure Pixel where
  red : Int
  green : Int
  blue : Int
deriving DecidableEq, Repr

/-- Modelled from the spec: the `data` module is not among the source files.
Image value type: a header plus the ordered sequence of pixels. -/
structure Image where
  header : Header
  pixels : List Pixel
deriving DecidableEq, Repr

/-- The failure outcomes of running the decoder: the three error kinds
raised in `utility.py` (`P3InvalidHeaderError`, `PartialPixelError`,
`MalformedPixelError`, the latter two carrying the row/col used to format
their message), plus the uncaught `ZeroDivisionError` that Python raises
when `idx // header.width` is evaluated with `width = 0`. -/
inductive PyErr where
  | invalidHeaderFormat : PyErr
  | PartialPixelAt (row col : Int) : PyErr
  | MalformedPixelAt (row col : Int) : PyErr
  | zeroDivision : PyErr
deriving DecidableEq, Repr

/-- Python whitespace for `str.split()` / `str.strip()` (ASCII range). -/
def pyIsSpace (c : Char) : Bool :=
  c = ' ' || c = '\t' || c = '\n' || c = '\r' || c = '\x0b' || c = '\x0c'

/-- Helper for `pySplit`: accumulate the current token (reversed). -/
def pySplitAux (cur : List Char) : List Char → List (List Char)
  | [] => if cur = [] then [] else [cur.reverse]
  | c :: cs =>
    if pyIsSpace c then
      if cur = [] then pySplitAux [] cs else cur.reverse :: pySplitAux [] cs
    else
      pySplitAux (c :: cur) cs

/-- Python `str.split()` with no argument: split on runs of whitespace,
discarding empty tokens. -/
def pySplit (s : String) : List String :=
  (pySplitAux [] s.data).map (fun cs => ⟨cs⟩)

/-- Drop leading Python whitespace from a character list. -/
def dropLeadingWs : List Char → List Char
  | [] => []
  | c :: cs => if pyIsSpace c then dropLeadingWs cs else c :: cs

/-- Python `str.strip()`: remove leading and trailing whitespace. -/
def pyStrip (s : String) : String :=
  ⟨(dropLeadingWs (dropLeadingWs s.data.reverse).reverse)⟩

/-- Tail of a valid CPython decimal digit run: digits, with each underscore
followed by a digit (underscores sit between digits only). -/
def digitsTail : List Char → Bool
  | [] => true
  | '_' :: cs =>
    match cs with
    | [] => false
    | c :: cs2 => c.isDigit && digitsTail cs2
  | c :: cs => c.isDigit && digitsTail cs

/-- A valid CPython decimal digit run: nonempty, starts with a digit. -/
def validDigits : List Char → Bool
  | [] => false
  | c :: cs => c.isDigit && digitsTail cs

/-- Numeric value of a digit run, skipping underscores. -/
def digitsVal (acc : Nat) : List Char → Nat
  | [] => acc
  | c :: cs =>
    if c = '_' then digitsVal acc cs
    else digitsVal (10 * acc + (c.toNat - 48)) cs

/-- Python `int(s)` on the (whitespace-free or stripped) strings this
program feeds it: optional sign, then a decimal digit run.  `none` models
the `ValueError` raised on any other string. -/
def pyInt (s : String) : Option Int :=
  match s.data with
  | '+' :: cs => if validDigits cs then some (digitsVal 0 cs) else none
  | '-' :: cs => if validDigits cs then some (-(digitsVal 0 cs : Int)) else none
  | cs => if validDigits cs then some (digitsVal 0 cs) else none

/-- Model of `utility._convert_int(value, None)`: best-effort integer conversion;
every call site passes `None` as the default, modelled by `Option`. -/
def _convert_int (s : String) : Option Int :=
  pyInt s

/-- Model of `utility._convert_dimensions`: split the dimensions line; it must give
exactly two integer tokens, else `P3InvalidHeaderError`. -/
def _convert_dimensions (dimension_str : String) : Except PyErr (Int × Int) :=
  let dim_list := pySplit dimension_str
  if dim_list.length = 2 then
    match _convert_int (dim_list.getD 0 ""), _convert_int (dim_list.getD 1 "") with
    | some width, some height => .ok (width, height)
    | _, _ => .error .invalidHeaderFormat
  else
    .error .invalidHeaderFormat

/-- Model of `utility._convert_color`: the max-color line must parse as an integer,
else `P3InvalidHeaderError`. -/
def _convert_color (color_str : String) : Except PyErr Int :=
  match _convert_int color_str with
  | some max_color => .ok max_color
  | none => .error .invalidHeaderFormat

/-- Model of `utility._read_header`: read three lines, check the magic token and
non-emptiness, then convert dimensions and max color. -/
def _read_header (lines : List String) : Except PyErr Header :=
  let first := pyStrip ((lines.getD 0 ""))
  let second := pyStrip ((lines.getD 1 ""))
  let third := pyStrip ((lines.getD 2 ""))
  if first ≠ "P3" ∨ second = "" ∨ third = "" then
    .error .invalidHeaderFormat
  else
    match _convert_dimensions second with
    | .error e => .error e
    | .ok (width, height) =>
      match _convert_color third with
      | .error e => .error e
      | .ok max_color => .ok ⟨width, height, max_color⟩

/-- Model of `utility._create_pixel`: fewer than 3 tokens raises
`PartialPixelError(row, col)`; otherwise all three tokens must parse as
integers or `MalformedPixelError(row, col)` is raised. -/
def _create_pixel (values : List String) (row col : Int) : Except PyErr Pixel :=
  if values.length < 3 then
    .error (.PartialPixelAt row col)
  else
    match _convert_int (values.getD 0 ""), _convert_int (values.getD 1 ""),
        _convert_int (values.getD 2 "") with
    | some red, some green, some blue => .ok ⟨red, green, blue⟩
    | _, _, _ => .error (.MalformedPixelAt row col)

/-- Model of `utility._groups_of_3`: partition a token list into consecutive groups
of 3; a final group of 1 or 2 tokens is retained. -/
def _groups_of_3 : List String → List (List String)
  | [] => []
  | [a] => [[a]]
  | [a, b] => [[a, b]]
  | a :: b :: c :: rest => [a, b, c] :: _groups_of_3 rest

/-- The pixel-building list comprehension of `utility.get_image`, with the
group index threaded through.  Python evaluates `idx // header.width`
before calling `_create_pixel`, so `width = 0` raises `ZeroDivisionError`
as soon as the first group is reached. -/
def decodePixels (width : Int) : Nat → List (List String) → Except PyErr (List Pixel)
  | _, [] => .ok []
  | idx, g :: gs =>
    if width = 0 then .error .zeroDivision
    else
      match _create_pixel g (Int.fdiv idx width) (Int.fmod idx width) with
      | .error e => .error e
      | .ok p =>
        match decodePixels width (idx + 1) gs with
        | .error e => .error e
        | .ok ps => .ok (p :: ps)

/-- The flat token sequence of the pixel section: all lines after the three
header lines, joined and split on whitespace. -/
def pixelTokens (lines : List String) : List String :=
  (lines.drop 3).flatMap pySplit

/-- Model of `utility.get_image`: read the header, split the remaining text into
tokens, build a pixel from each group of 3. -/
def get_image (lines : List String) : Except PyErr Image :=
  match _read_header lines with
  | .error e => .error e
  | .ok header =>
    match decodePixels header.width 0 (_groups_of_3 (pixelTokens lines)) with
    | .error e => .error e
    | .ok pixels => .ok ⟨header, pixels⟩

/-- Decimal digits of a natural number, most significant first; the extra
fuel argument keeps the recursion structural. -/
def natDigitsAux : Nat → Nat → List Char
  | 0, _ => []
  | fuel + 1, n =>
    if n < 10 then [Nat.digitChar n]
    else natDigitsAux fuel (n / 10) ++ [Nat.digitChar (n % 10)]

/-- Python `str(i)` for an integer: decimal digits with a leading minus
sign when negative. -/
def pyStrInt (i : Int) : String :=
  if i < 0 then "-" ++ ⟨natDigitsAux (i.natAbs + 1) i.natAbs⟩
  else ⟨natDigitsAux (i.natAbs + 1) i.natAbs⟩

/-- One output-image row, as printed by
a format call on three integers: three decimal renderings separated by
single spaces with a trailing space. -/
def row3 (a b c : Int) : String :=
  pyStrInt a ++ " " ++ pyStrInt b ++ " " ++ pyStrInt c ++ " "

-- Message constants of ppmdiff.py.

/-- Constant `ppmdiff.COLUMN_MISMATCH`. -/
def COLUMN_MISMATCH : String := "widths differ"

/-- Constant `ppmdiff.ROW_MISMATCH`. -/
def ROW_MISMATCH : String := "heights differ"

/-- Constant `ppmdiff.MAX_COLOR_MISMATCH`. -/
def MAX_COLOR_MISMATCH : String := "color max values differ"

/-- Constant `ppmdiff.NO_MISMATCH`. -/
def NO_MISMATCH : String := "nothing differs"

/-- Model of `ppmdiff.pixel_diff`: per-channel absolute difference of two pixels. -/
def pixel_diff (p1 p2 : Pixel) : Pixel :=
  ⟨(p1.red - p2.red).natAbs, (p1.green - p2.green).natAbs,
    (p1.blue - p2.blue).natAbs⟩

/-- Model of `ppmdiff.header_match_error`: the reason for a header mismatch, checked
width first, then height, then max color. -/
def header_match_error (h1 h2 : Header) : String :=
  if h1.width ≠ h2.width then COLUMN_MISMATCH
  else if h1.height ≠ h2.height then ROW_MISMATCH
  else if h1.max_color ≠ h2.max_color then MAX_COLOR_MISMATCH
  else NO_MISMATCH

/-- The single stderr line printed for a differing pixel pair: the
`print(..., end=..)` call and the following newline-terminated `print`
together emit one line.  `pixelStr` renders a pixel the way the Python
`str` builtin does for the `Pixel` class of the `data` module (that module
is not among the source files, so the rendering is kept abstract). -/
def diag_line (pixelStr : Pixel → String) (row col : Int) (p1 p2 : Pixel) : String :=
  "pixels at <row=" ++ pyStrInt row ++ ", col=" ++ pyStrInt col ++
    "> differ.  " ++ pixelStr p1 ++ " <-- --> " ++ pixelStr p2

/-- Everything `ppmdiff.process_pixels` writes or returns: the lines
printed to the digital and analog output streams, the diagnostic lines
printed to stderr, the returned flag, and `err` recording an uncaught
`ZeroDivisionError` (raised when `idx // header.width` is evaluated with
`width = 0`); on an error the other fields hold what was written before
the raise and `differ` the value of the local variable at that moment. -/
structure DiffResult where
  digital : List String
  analog : List String
  diagnostics : List String
  differ : Bool
  err : Option PyErr
deriving DecidableEq, Repr

/-- Model of `ppmdiff.process_pixels`, iterating pixel pairs in lockstep
(the Python `zip` stops at the shorter list) with `idx` the counter.
Identical pairs print the white row to both streams; differing pairs print
a diagnostic line to stderr, the inverted-difference row to the analog
stream, the black row to the digital stream, and set the flag. -/
def process_pixels (pixelStr : Pixel → String) (header : Header) :
    Nat → List Pixel → List Pixel → DiffResult
  | _, [], _ => ⟨[], [], [], false, none⟩
  | _, _ :: _, [] => ⟨[], [], [], false, none⟩
  | idx, p1 :: ps1, p2 :: ps2 =>
    if p1 = p2 then
      let w := row3 header.max_color header.max_color header.max_color
      let rest := process_pixels pixelStr header (idx + 1) ps1 ps2
      ⟨w :: rest.digital, w :: rest.analog, rest.diagnostics, rest.differ, rest.err⟩
    else if header.width = 0 then
      ⟨[], [], [], false, some .zeroDivision⟩
    else
      let d := pixel_diff p1 p2
      let rest := process_pixels pixelStr header (idx + 1) ps1 ps2
      ⟨"0 0 0 " :: rest.digital,
        row3 (header.max_color - d.red) (header.max_color - d.green)
          (header.max_color - d.blue) :: rest.analog,
        diag_line pixelStr (Int.fdiv idx header.width)
          (Int.fmod idx header.width) p1 p2 :: rest.diagnostics,
        true, rest.err⟩

/-- Model of `ppmdiff.write_header`: each print call there ends in an
explicit newline on top of the implicit one, so it emits its text plus a
blank line, and the header occupies six lines on each output stream. -/
def write_header (h : Header) : List String :=
  ["P3", "", pyStrInt h.width ++ " " ++ pyStrInt h.height, "",
    pyStrInt h.max_color, ""]

/-- Model of `ppmdiff.generate_diffs`: write the header to both output streams,
then process the pixels. -/
def generate_diffs (pixelStr : Pixel → String) (pixels1 pixels2 : List Pixel)
    (header : Header) : DiffResult :=
  let r := process_pixels pixelStr header 0 pixels1 pixels2
  ⟨write_header header ++ r.digital, write_header header ++ r.analog,
    r.diagnostics, r.differ, r.err⟩

/-- A concrete pixel renderer used to instantiate `pixelStr` in closed
statements (the real rendering lives in the absent `data` module). -/
def pixelStr0 : Pixel → String := fun _ => ""

/-- A token group that `_create_pixel` accepts: at least 3 tokens, the
first three of which parse as integers. -/
def goodGroup (g : List String) : Bool :=
  3 ≤ g.length && (_convert_int (g.getD 0 "")).isSome &&
    (_convert_int (g.getD 1 "")).isSome && (_convert_int (g.getD 2 "")).isSome

/-- Whether an error value is one of the three error kinds that
`utility.py` itself raises (as opposed to the uncaught
`ZeroDivisionError`). -/
def isDeclaredDecodeError : PyErr → Bool
  | .invalidHeaderFormat => true
  | .PartialPixelAt _ _ => true
  | .MalformedPixelAt _ _ => true
  | .zeroDivision => false

/-! ## Theorems -/

/-- C9: `pixel_diff` is symmetric: swapping the two pixel arguments gives
the same per-channel absolute difference. -/
theorem pixel_diff_symm (p1 p2 : Pixel) : pixel_diff p1 p2 = pixel_diff p2 p1 := by
  simp only [pixel_diff, Pixel.mk.injEq]
  refine ⟨?_, ?_, ?_⟩ <;> omega

/-- C5: `header_match_error` reports exactly one reason, selected by
priority: a width mismatch wins regardless of the other fields, then
height, then max color, and `NO_MISMATCH` is reported exactly when the
headers are equal; the result is always one of the four messages. -/
theorem header_match_error_spec (h1 h2 : Header) :
    (h1.width ≠ h2.width → header_match_error h1 h2 = COLUMN_MISMATCH) ∧
    (h1.width = h2.width → h1.height ≠ h2.height →
      header_match_error h1 h2 = ROW_MISMATCH) ∧
    (h1.width = h2.width → h1.height = h2.height → h1.max_color ≠ h2.max_color →
      header_match_error h1 h2 = MAX_COLOR_MISMATCH) ∧
    (header_match_error h1 h2 = NO_MISMATCH ↔ h1 = h2) ∧
    (header_match_error h1 h2 = COLUMN_MISMATCH ∨
      header_match_error h1 h2 = ROW_MISMATCH ∨
      header_match_error h1 h2 = MAX_COLOR_MISMATCH ∨
      header_match_error h1 h2 = NO_MISMATCH) := by
  obtain ⟨w1, hh1, m1⟩ := h1
  obtain ⟨w2, hh2, m2⟩ := h2
  simp only [header_match_error, COLUMN_MISMATCH, ROW_MISMATCH, MAX_COLOR_MISMATCH,
    NO_MISMATCH, Header.mk.injEq]
  by_cases hw : w1 = w2 <;> by_cases hh : hh1 = hh2 <;> by_cases hm : m1 = m2 <;>
    simp [hw, hh, hm]

/-- C5 witness: the theorem applied at concrete header pairs, covering each
priority branch. -/
theorem header_match_error_spec_witness :
    header_match_error ⟨1, 2, 3⟩ ⟨4, 2, 3⟩ = COLUMN_MISMATCH ∧
    header_match_error ⟨1, 2, 3⟩ ⟨1, 5, 9⟩ = ROW_MISMATCH ∧
    header_match_error ⟨1, 2, 3⟩ ⟨1, 2, 9⟩ = MAX_COLOR_MISMATCH ∧
    header_match_error ⟨1, 2, 3⟩ ⟨1, 2, 3⟩ = NO_MISMATCH :=
  ⟨(header_match_error_spec ⟨1, 2, 3⟩ ⟨4, 2, 3⟩).1 (by decide),
   (header_match_error_spec ⟨1, 2, 3⟩ ⟨1, 5, 9⟩).2.1 rfl (by decide),
   (header_match_error_spec ⟨1, 2, 3⟩ ⟨1, 2, 9⟩).2.2.1 rfl rfl (by decide),
   (header_match_error_spec ⟨1, 2, 3⟩ ⟨1, 2, 3⟩).2.2.2.1.mpr rfl⟩

/-- C7: diffing a pixel list against itself, under any header, any
renderer and any starting index, finds no difference, emits no
diagnostics, raises nothing, and writes the all-max (white) row to both
output streams once per pixel. -/
theorem process_pixels_self (s : Pixel → String) (header : Header) (idx : Nat)
    (ps : List Pixel) :
    process_pixels s header idx ps ps =
      ⟨List.replicate ps.length
          (row3 header.max_color header.max_color header.max_color),
        List.replicate ps.length
          (row3 header.max_color header.max_color header.max_color),
        [], false, none⟩ := by
  induction ps generalizing idx with
  | nil => rfl
  | cons p ps ih =>
    simp [process_pixels, ih (idx + 1), List.replicate_succ]

/-- C1 counterexample: on the worked example (width 2, height 1, max color
255, red-then-green diffed against red-then-red) the analog row written
for pixel 1 is `"0 0 255 "`, not the claimed `"255 0 255 "`. -/
theorem worked_example_analog_counterexample :
    (process_pixels pixelStr0 ⟨2, 1, 255⟩ 0
        [⟨255, 0, 0⟩, ⟨0, 255, 0⟩] [⟨255, 0, 0⟩, ⟨255, 0, 0⟩]).analog =
      ["255 255 255 ", "0 0 255 "] ∧
    (["255 255 255 ", "0 0 255 "] : List String) ≠
      ["255 255 255 ", "255 0 255 "] := by
  refine ⟨rfl, by decide⟩

/-- C1 (amended): on the worked example, pixel 0 gets the white row
`"255 255 255 "` on both outputs; pixel 1 gets digital row `"0 0 0 "`,
analog row `"0 0 255 "`, one diagnostic line with row 0 and col 1, and the
returned flag is true (no error is raised). -/
theorem worked_example_spec (s : Pixel → String) :
    process_pixels s ⟨2, 1, 255⟩ 0
        [⟨255, 0, 0⟩, ⟨0, 255, 0⟩] [⟨255, 0, 0⟩, ⟨255, 0, 0⟩] =
      ⟨["255 255 255 ", "0 0 0 "], ["255 255 255 ", "0 0 255 "],
        [diag_line s 0 1 ⟨0, 255, 0⟩ ⟨255, 0, 0⟩], true, none⟩ := by
  rfl

/-- C8: whenever the pixels paired at position `j` differ (and the declared
width is nonzero, so that the row/col computation does not raise), the row
written at position `j` of the digital output stream is exactly
`"0 0 0 "`, whatever the magnitude of the difference. -/
theorem differing_pixel_digital_row (s : Pixel → String) (header : Header)
    (hw : header.width ≠ 0) (idx j : Nat) (ps1 ps2 : List Pixel) (p1 p2 : Pixel)
    (h1 : ps1[j]? = some p1) (h2 : ps2[j]? = some p2) (hne : p1 ≠ p2) :
    (process_pixels s header idx ps1 ps2).digital[j]? = some "0 0 0 " := by
  induction ps1 generalizing ps2 idx j with
  | nil => simp at h1
  | cons a ps1 ih =>
    cases ps2 with
    | nil => simp at h2
    | cons b ps2 =>
      cases j with
      | zero =>
        simp only [List.getElem?_cons_zero, Option.some.injEq] at h1 h2
        subst h1; subst h2
        simp [process_pixels, hne, hw]
      | succ j =>
        simp only [List.getElem?_cons_succ] at h1 h2
        by_cases hab : a = b
        · simpa [process_pixels, hab] using ih _ _ _ h1 h2
        · simpa [process_pixels, hab, hw] using ih _ _ _ h1 h2

/-- C8 witness: the theorem applied at a concrete differing pair. -/
theorem differing_pixel_digital_row_witness :
    (process_pixels pixelStr0 ⟨2, 1, 255⟩ 0
        [⟨255, 0, 0⟩, ⟨0, 255, 0⟩] [⟨255, 0, 0⟩, ⟨255, 0, 0⟩]).digital[1]? =
      some "0 0 0 " :=
  differing_pixel_digital_row pixelStr0 ⟨2, 1, 255⟩ (by decide) 0 1
    [⟨255, 0, 0⟩, ⟨0, 255, 0⟩] [⟨255, 0, 0⟩, ⟨255, 0, 0⟩]
    ⟨0, 255, 0⟩ ⟨255, 0, 0⟩ rfl rfl (by decide)

/-- C2 counterexample: for a concrete differing pair the stderr line uses
the separator `" <-- --> "` (two print calls: the differ text with its
newline suppressed, then the arrow text), not the claimed `" <--> "`: with the
pixel renderer fixed, the emitted line differs from the claimed line. -/
theorem diagnostics_separator_counterexample :
    (process_pixels pixelStr0 ⟨2, 1, 255⟩ 0
        [⟨0, 255, 0⟩] [⟨255, 0, 0⟩]).diagnostics =
      ["pixels at <row=0, col=0> differ.   <-- --> "] ∧
    ("pixels at <row=0, col=0> differ.   <-- --> " : String) ≠
      "pixels at <row=0, col=0> differ.   <--> " := by
  refine ⟨rfl, by decide⟩

/-- C2 (amended): with a nonzero declared width, the diagnostic channel
receives exactly one line per differing pair, in order: position `idx` in
the lockstep enumeration contributes, when its pixels differ, the line
`diag_line` built from row `idx // width`, col `idx % width` and the two
pixels — i.e. `"pixels at <row=R, col=C> differ.  "` followed by
`"p1 <-- --> p2"` (separator `<-- -->`, not `<-->`). -/
theorem diagnostics_spec (s : Pixel → String) (header : Header)
    (hw : header.width ≠ 0) (idx : Nat) (ps1 ps2 : List Pixel) :
    (process_pixels s header idx ps1 ps2).diagnostics =
      ((List.enumFrom idx (ps1.zip ps2)).filter
          (fun e => decide (e.2.1 ≠ e.2.2))).map
        (fun e => diag_line s (Int.fdiv e.1 header.width)
          (Int.fmod e.1 header.width) e.2.1 e.2.2) := by
  induction ps1 generalizing ps2 idx with
  | nil => simp [process_pixels]
  | cons a ps1 ih =>
    cases ps2 with
    | nil => simp [process_pixels]
    | cons b ps2 =>
      by_cases hab : a = b
      · simpa [process_pixels, List.enumFrom, hab] using ih _ _
      · simpa [process_pixels, List.enumFrom, hab, hw] using ih _ _

/-- C2 witness: the amended theorem applied at a concrete input with one
identical and one differing pair. -/
theorem diagnostics_spec_witness :
    (process_pixels pixelStr0 ⟨2, 1, 255⟩ 0
        [⟨255, 0, 0⟩, ⟨0, 255, 0⟩] [⟨255, 0, 0⟩, ⟨255, 0, 0⟩]).diagnostics =
      ((List.enumFrom 0 ([⟨255, 0, 0⟩, ⟨0, 255, 0⟩].zip
            [⟨255, 0, 0⟩, ⟨255, 0, 0⟩])).filter
          (fun e => decide (e.2.1 ≠ e.2.2))).map
        (fun e => diag_line pixelStr0 (Int.fdiv e.1 2) (Int.fmod e.1 2)
          e.2.1 e.2.2) :=
  diagnostics_spec pixelStr0 ⟨2, 1, 255⟩ (by decide) 0
    [⟨255, 0, 0⟩, ⟨0, 255, 0⟩] [⟨255, 0, 0⟩, ⟨255, 0, 0⟩]

/-- Helper: `zip` truncation — processing two pixel lists is the same as
processing their common-length prefixes. -/
theorem process_pixels_take (s : Pixel → String) (header : Header) (idx : Nat)
    (ps1 ps2 : List Pixel) :
    process_pixels s header idx ps1 ps2 =
      process_pixels s header idx
        (ps1.take (min ps1.length ps2.length))
        (ps2.take (min ps1.length ps2.length)) := by
  induction ps1 generalizing ps2 idx with
  | nil => simp [process_pixels]
  | cons a ps1 ih =>
    cases ps2 with
    | nil => simp [process_pixels]
    | cons b ps2 =>
      simp only [List.length_cons, Nat.succ_min_succ, List.take_succ_cons]
      by_cases hab : a = b
      · simp only [process_pixels, if_pos hab]
        rw [← ih]
      · by_cases hw : header.width = 0
        · simp [process_pixels, hab, hw]
        · simp only [process_pixels, if_neg hab, if_neg hw]
          rw [← ih]

/-- Helper: when no error is raised, exactly one row per compared pair is
written to each output stream. -/
theorem process_pixels_num_rows (s : Pixel → String) (header : Header)
    (idx : Nat) (ps1 ps2 : List Pixel)
    (h : (process_pixels s header idx ps1 ps2).err = none) :
    (process_pixels s header idx ps1 ps2).digital.length =
        min ps1.length ps2.length ∧
      (process_pixels s header idx ps1 ps2).analog.length =
        min ps1.length ps2.length := by
  induction ps1 generalizing ps2 idx with
  | nil => simp [process_pixels]
  | cons a ps1 ih =>
    cases ps2 with
    | nil => simp [process_pixels]
    | cons b ps2 =>
      by_cases hab : a = b
      · simp only [process_pixels, if_pos hab] at h ⊢
        simp only [List.length_cons, Nat.succ_min_succ, List.length_cons]
        exact ⟨congrArg Nat.succ (ih _ _ h).1, congrArg Nat.succ (ih _ _ h).2⟩
      · by_cases hw : header.width = 0
        · simp [process_pixels, hab, hw] at h
        · simp only [process_pixels, if_neg hab, if_neg hw] at h ⊢
          simp only [List.length_cons, Nat.succ_min_succ]
          exact ⟨congrArg Nat.succ (ih _ _ h).1, congrArg Nat.succ (ih _ _ h).2⟩

/-- C10: with pixel lists of possibly unequal lengths, the diff engine
behaves exactly as on the common-length prefixes (the Python `zip` stops at
the shorter list): same outputs, same diagnostics, same flag, no error
caused by the length mismatch; and when no error is raised, each output
stream gets exactly `min len1 len2` rows, so the ignored trailing pixels
produce no rows. -/
theorem process_pixels_ignores_trailing (s : Pixel → String) (header : Header)
    (idx : Nat) (ps1 ps2 : List Pixel) :
    process_pixels s header idx ps1 ps2 =
      process_pixels s header idx
        (ps1.take (min ps1.length ps2.length))
        (ps2.take (min ps1.length ps2.length)) ∧
    ((process_pixels s header idx ps1 ps2).err = none →
      (process_pixels s header idx ps1 ps2).digital.length =
          min ps1.length ps2.length ∧
        (process_pixels s header idx ps1 ps2).analog.length =
          min ps1.length ps2.length) :=
  ⟨process_pixels_take s header idx ps1 ps2,
    process_pixels_num_rows s header idx ps1 ps2⟩

/-- C10 witness: the theorem applied to lists of lengths 1 and 3. -/
theorem process_pixels_ignores_trailing_witness :
    process_pixels pixelStr0 ⟨2, 1, 255⟩ 0 [⟨1, 2, 3⟩]
        [⟨1, 2, 3⟩, ⟨7, 7, 7⟩, ⟨8, 8, 8⟩] =
      process_pixels pixelStr0 ⟨2, 1, 255⟩ 0
        ([⟨1, 2, 3⟩].take (min 1 3))
        ([⟨1, 2, 3⟩, ⟨7, 7, 7⟩, ⟨8, 8, 8⟩].take (min 1 3)) ∧
    (process_pixels pixelStr0 ⟨2, 1, 255⟩ 0 [⟨1, 2, 3⟩]
        [⟨1, 2, 3⟩, ⟨7, 7, 7⟩, ⟨8, 8, 8⟩]).digital.length = min 1 3 ∧
    (process_pixels pixelStr0 ⟨2, 1, 255⟩ 0 [⟨1, 2, 3⟩]
        [⟨1, 2, 3⟩, ⟨7, 7, 7⟩, ⟨8, 8, 8⟩]).analog.length = min 1 3 :=
  ⟨(process_pixels_ignores_trailing pixelStr0 ⟨2, 1, 255⟩ 0 [⟨1, 2, 3⟩]
      [⟨1, 2, 3⟩, ⟨7, 7, 7⟩, ⟨8, 8, 8⟩]).1,
   (process_pixels_ignores_trailing pixelStr0 ⟨2, 1, 255⟩ 0 [⟨1, 2, 3⟩]
      [⟨1, 2, 3⟩, ⟨7, 7, 7⟩, ⟨8, 8, 8⟩]).2 rfl⟩

/-- Helper: a group of fewer than 3 tokens always yields the partial-pixel
error, before any token is parsed. -/
theorem create_pixel_short (g : List String) (r c : Int) (h : g.length < 3) :
    _create_pixel g r c = .error (.PartialPixelAt r c) := by
  simp [_create_pixel, h]

/-- Helper: a full group with an unparseable token among the first three
yields the malformed-pixel error. -/
theorem create_pixel_malformed (g : List String) (r c : Int)
    (h3 : ¬ g.length < 3)
    (h : _convert_int (g.getD 0 "") = none ∨ _convert_int (g.getD 1 "") = none ∨
      _convert_int (g.getD 2 "") = none) :
    _create_pixel g r c = .error (.MalformedPixelAt r c) := by
  simp only [_create_pixel, if_neg h3]
  cases h0 : _convert_int (g.getD 0 "") <;>
    cases h1 : _convert_int (g.getD 1 "") <;>
    cases h2 : _convert_int (g.getD 2 "") <;> simp_all

/-- Helper: an accepted group yields a pixel. -/
theorem create_pixel_of_good (g : List String) (r c : Int)
    (h : goodGroup g = true) : ∃ p, _create_pixel g r c = .ok p := by
  simp only [goodGroup, Bool.and_eq_true, decide_eq_true_eq,
    Option.isSome_iff_exists] at h
  obtain ⟨⟨⟨h3, v0, h0⟩, v1, h1⟩, v2, h2⟩ := h
  rw [List.getD_eq_getElem?_getD] at h0 h1 h2
  refine ⟨⟨v0, v1, v2⟩, ?_⟩
  simp only [_create_pixel, if_neg (Nat.not_lt.mpr h3),
    List.getD_eq_getElem?_getD, h0, h1, h2]

/-- Helper: with a nonzero width and all groups before position `j`
accepted, the outcome of the decode at the first offending group `j` is the
error computed from `j` and the width: partial-pixel when the group is
short, malformed-pixel when a token fails to parse. -/
theorem decodePixels_error_at (w : Int) (hw : w ≠ 0) (gs : List (List String))
    (n j : Nat) (hgood : ∀ k, k < j → goodGroup (gs.getD k []) = true)
    (hj : j < gs.length) :
    ((gs.getD j []).length < 3 →
      decodePixels w n gs =
        .error (.PartialPixelAt (Int.fdiv (n + j) w) (Int.fmod (n + j) w))) ∧
    (¬ (gs.getD j []).length < 3 →
      (_convert_int ((gs.getD j []).getD 0 "") = none ∨
        _convert_int ((gs.getD j []).getD 1 "") = none ∨
        _convert_int ((gs.getD j []).getD 2 "") = none) →
      decodePixels w n gs =
        .error (.MalformedPixelAt (Int.fdiv (n + j) w) (Int.fmod (n + j) w))) := by
  induction gs generalizing n j with
  | nil => simp at hj
  | cons g gs ih =>
    cases j with
    | zero =>
      simp only [List.getD_cons_zero, Nat.cast_zero, add_zero]
      constructor
      · intro hshort
        simp only [decodePixels, if_neg hw, create_pixel_short g _ _ hshort]
      · intro hfull hbad
        simp only [decodePixels, if_neg hw,
          create_pixel_malformed g _ _ hfull hbad]
    | succ j =>
      have hg : goodGroup g = true := by
        have := hgood 0 (Nat.succ_pos j)
        simpa using this
      obtain ⟨p, hp⟩ := create_pixel_of_good g (Int.fdiv n w) (Int.fmod n w) hg
      have hgood2 : ∀ k, k < j → goodGroup (gs.getD k []) = true := by
        intro k hk
        have := hgood (k + 1) (Nat.succ_lt_succ hk)
        simpa using this
      have hj2 : j < gs.length := by simpa using hj
      have ih2 := ih (n + 1) j hgood2 hj2
      have harith : ((n + 1 : Nat) : Int) + (j : Int) =
          (n : Int) + ((j + 1 : Nat) : Int) := by push_cast; ring
      rw [harith] at ih2
      simp only [List.getD_cons_succ]
      constructor
      · intro hshort
        simp only [decodePixels, if_neg hw, hp, ih2.1 hshort]
      · intro hfull hbad
        simp only [decodePixels, if_neg hw, hp, ih2.2 hfull hbad]

/-- C6: with a nonzero declared width and all groups before position `j`
accepted, the decode of a grouped token stream fails at group `j` with
`PartialPixelAt (j fdiv width) (j fmod width)` when the group has fewer
than 3 tokens, and with `MalformedPixelAt` of the same row/col when it has
3 tokens of which one does not parse as an integer; within a group the
short check takes precedence over parsing (a short group yields the
partial-pixel error whatever its tokens hold).  Row/col come from the
group index and the declared width only. -/
theorem pixel_group_error_attribution (width : Int) (hw : width ≠ 0)
    (tokens : List String) (j : Nat)
    (hgood : ∀ k, k < j → goodGroup ((_groups_of_3 tokens).getD k []) = true)
    (hj : j < (_groups_of_3 tokens).length) :
    (((_groups_of_3 tokens).getD j []).length < 3 →
      decodePixels width 0 (_groups_of_3 tokens) =
        .error (.PartialPixelAt (Int.fdiv j width) (Int.fmod j width))) ∧
    (¬ ((_groups_of_3 tokens).getD j []).length < 3 →
      (_convert_int (((_groups_of_3 tokens).getD j []).getD 0 "") = none ∨
        _convert_int (((_groups_of_3 tokens).getD j []).getD 1 "") = none ∨
        _convert_int (((_groups_of_3 tokens).getD j []).getD 2 "") = none) →
      decodePixels width 0 (_groups_of_3 tokens) =
        .error (.MalformedPixelAt (Int.fdiv j width) (Int.fmod j width))) ∧
    (∀ (g : List String) (r c : Int), g.length < 3 →
      _create_pixel g r c = .error (.PartialPixelAt r c)) := by
  have h := decodePixels_error_at width hw (_groups_of_3 tokens) 0 j hgood hj
  simp only [Nat.cast_zero, zero_add] at h
  exact ⟨h.1, h.2, create_pixel_short⟩

/-- C6 witness: the theorem applied to concrete token streams with width 2:
a trailing 2-token group at group index 1 gives the partial-pixel error at
row 0, col 1; an unparseable token in full group 1 gives the
malformed-pixel error at row 0, col 1. -/
theorem pixel_group_error_attribution_witness :
    decodePixels 2 0 (_groups_of_3 ["1", "2", "3", "4", "5"]) =
      .error (.PartialPixelAt (Int.fdiv 1 2) (Int.fmod 1 2)) ∧
    decodePixels 2 0 (_groups_of_3 ["1", "2", "3", "xx", "5", "6"]) =
      .error (.MalformedPixelAt (Int.fdiv 1 2) (Int.fmod 1 2)) ∧
    Int.fdiv 1 2 = 0 ∧ Int.fmod 1 2 = 1 :=
  ⟨(pixel_group_error_attribution 2 (by decide) ["1", "2", "3", "4", "5"] 1
      (by decide) (by decide)).1 (by decide),
   (pixel_group_error_attribution 2 (by decide) ["1", "2", "3", "xx", "5", "6"] 1
      (by decide) (by decide)).2.1 (by decide) (Or.inl rfl),
   by decide, by decide⟩

/-- Helper: `_convert_dimensions` can only fail with the invalid-header
error. -/
theorem convert_dimensions_error (s : String) (e : PyErr)
    (h : _convert_dimensions s = .error e) : e = .invalidHeaderFormat := by
  simp only [_convert_dimensions] at h
  split at h
  · split at h
    · exact absurd h (by simp)
    · exact (Except.error.inj h).symm
  · exact (Except.error.inj h).symm

/-- Helper: `_convert_color` can only fail with the invalid-header error. -/
theorem convert_color_error (s : String) (e : PyErr)
    (h : _convert_color s = .error e) : e = .invalidHeaderFormat := by
  unfold _convert_color at h
  split at h
  · exact absurd h (by simp)
  · exact (Except.error.inj h).symm

/-- Helper: `_read_header` can only fail with the invalid-header error. -/
theorem read_header_error (lines : List String) (e : PyErr)
    (h : _read_header lines = .error e) : e = .invalidHeaderFormat := by
  simp only [_read_header] at h
  split at h
  · exact (Except.error.inj h).symm
  · split at h
    · next heq => exact (Except.error.inj h).symm.trans (convert_dimensions_error _ _ heq)
    · split at h
      · next heq => exact (Except.error.inj h).symm.trans (convert_color_error _ _ heq)
      · exact absurd h (by simp)

/-- Helper: `_create_pixel` can only fail with the partial- or
malformed-pixel error carrying exactly its row/col arguments. -/
theorem create_pixel_error_kinds (g : List String) (r c : Int) (e : PyErr)
    (h : _create_pixel g r c = .error e) :
    e = .PartialPixelAt r c ∨ e = .MalformedPixelAt r c := by
  unfold _create_pixel at h
  split at h
  · exact Or.inl (Except.error.inj h).symm
  · split at h
    · exact absurd h (by simp)
    · exact Or.inr (Except.error.inj h).symm

/-- Helper: classification of `decodePixels` failures: partial pixel,
malformed pixel, or the zero-division raise, the latter only when the
width is 0 and at least one group exists. -/
theorem decodePixels_error_kinds (w : Int) (n : Nat) (gs : List (List String))
    (e : PyErr) (h : decodePixels w n gs = .error e) :
    (∃ r c, e = .PartialPixelAt r c) ∨ (∃ r c, e = .MalformedPixelAt r c) ∨
      (e = .zeroDivision ∧ w = 0 ∧ gs ≠ []) := by
  induction gs generalizing n with
  | nil => exact absurd h (by simp [decodePixels])
  | cons g gs ih =>
    unfold decodePixels at h
    split at h
    · next hw0 =>
      exact Or.inr (Or.inr ⟨(Except.error.inj h).symm, hw0, by simp⟩)
    · next hw0 =>
      split at h
      · next e2 heq =>
        rcases create_pixel_error_kinds _ _ _ _ heq with h2 | h2
        · exact Or.inl ⟨_, _, (Except.error.inj h).symm.trans h2⟩
        · exact Or.inr (Or.inl ⟨_, _, (Except.error.inj h).symm.trans h2⟩)
      · split at h
        · next e2 heq =>
          rcases ih (n + 1) (heq.trans h) with h2 | h2 | ⟨_, hzw, _⟩
          · exact Or.inl h2
          · exact Or.inr (Or.inl h2)
          · exact absurd hzw hw0
        · exact absurd h (by simp)

/-- C3 counterexample: decoding `P3 / 0 1 / 255` followed by one pixel
group fails with the uncaught `ZeroDivisionError`, which is none of the
three declared error kinds. -/
theorem get_image_zero_width_counterexample :
    get_image ["P3", "0 1", "255", "1 2 3"] = .error .zeroDivision ∧
    isDeclaredDecodeError .zeroDivision = false :=
  ⟨rfl, rfl⟩

/-- C3 (amended): every decode either returns a complete Image or fails
with exactly one error: the invalid-header kind, a partial-pixel kind, a
malformed-pixel kind, or — when the successfully parsed header has
width 0 and the pixel section is nonempty — the uncaught
`ZeroDivisionError`; on failure no partial Image is exposed (the result is
a bare error value). -/
theorem get_image_outcomes (lines : List String) :
    (∃ img, get_image lines = .ok img) ∨
    get_image lines = .error .invalidHeaderFormat ∨
    (∃ r c, get_image lines = .error (.PartialPixelAt r c)) ∨
    (∃ r c, get_image lines = .error (.MalformedPixelAt r c)) ∨
    (get_image lines = .error .zeroDivision ∧
      (∃ hdr, _read_header lines = .ok hdr ∧ hdr.width = 0) ∧
      pixelTokens lines ≠ []) := by
  unfold get_image
  cases hh : _read_header lines with
  | error e =>
    have he := read_header_error lines e hh
    subst he
    exact Or.inr (Or.inl rfl)
  | ok hdr =>
    cases hd : decodePixels hdr.width 0 (_groups_of_3 (pixelTokens lines)) with
    | ok ps => exact Or.inl ⟨⟨hdr, ps⟩, by simp only [hd]⟩
    | error e =>
      rcases decodePixels_error_kinds _ _ _ _ hd with ⟨r, c, rfl⟩ | ⟨r, c, rfl⟩ |
          ⟨rfl, hw0, hne⟩
      · exact Or.inr (Or.inr (Or.inl ⟨r, c, by simp only [hd]⟩))
      · exact Or.inr (Or.inr (Or.inr (Or.inl ⟨r, c, by simp only [hd]⟩)))
      · refine Or.inr (Or.inr (Or.inr (Or.inr ⟨by simp only [hd], ⟨hdr, rfl, hw0⟩, ?_⟩)))
        intro ht
        rw [ht] at hne
        exact hne rfl

/-- Helper: a successful `_convert_dimensions` means the line split into
exactly two tokens, each parsing to the returned integer. -/
theorem convert_dimensions_ok (s : String) (w h : Int)
    (hc : _convert_dimensions s = .ok (w, h)) :
    ∃ a b, pySplit s = [a, b] ∧ _convert_int a = some w ∧
      _convert_int b = some h := by
  simp only [_convert_dimensions] at hc
  split at hc
  · next hlen =>
    obtain ⟨a, b, hab⟩ := List.length_eq_two.mp hlen
    rw [hab] at hc
    simp only [List.getD_cons_zero, List.getD_cons_succ] at hc
    refine ⟨a, b, hab, ?_⟩
    cases h0 : _convert_int a <;> rw [h0] at hc
    · exact absurd hc (by simp)
    · cases h1 : _convert_int b <;> rw [h1] at hc
      · exact absurd hc (by simp)
      · obtain ⟨hw, hh⟩ := Prod.mk.injEq .. ▸ (Except.ok.inj hc)
        exact ⟨hw ▸ rfl, hh ▸ rfl⟩
  · exact absurd hc (by simp)

/-- Helper: a successful `_convert_color` means the line parses to the
returned integer. -/
theorem convert_color_ok (s : String) (m : Int)
    (hc : _convert_color s = .ok m) : _convert_int s = some m := by
  simp only [_convert_color] at hc
  cases h0 : _convert_int s <;> rw [h0] at hc
  · exact absurd hc (by simp)
  · exact congrArg some (Except.ok.inj hc)

/-- Helper: a successful `_read_header` determines the header fields from
the split-and-parsed second and third lines. -/
theorem read_header_ok (lines : List String) (hdr : Header)
    (h : _read_header lines = .ok hdr) :
    ∃ a b, pySplit (pyStrip (lines.getD 1 "")) = [a, b] ∧
      _convert_int a = some hdr.width ∧
      _convert_int b = some hdr.height ∧
      _convert_int (pyStrip (lines.getD 2 "")) = some hdr.max_color := by
  simp only [_read_header] at h
  split at h
  · exact absurd h (by simp)
  · split at h
    · exact absurd h (by simp)
    · next w hgt heq =>
      split at h
      · exact absurd h (by simp)
      · next m heq2 =>
        obtain rfl : Header.mk w hgt m = hdr := Except.ok.inj h
        obtain ⟨a, b, hab, ha, hb⟩ := convert_dimensions_ok _ _ _ heq
        exact ⟨a, b, hab, ha, hb, convert_color_ok _ _ heq2⟩

/-- C4 counterexample: `P3 / 0 1 / -7` with no pixel tokens decodes
successfully to a header with width 0 and max color -7, violating both
`width > 0` and `max_color >= 0`. -/
theorem header_positivity_counterexample :
    get_image ["P3", "0 1", "-7"] = .ok ⟨⟨0, 1, -7⟩, []⟩ ∧
    ¬ ((0 : Int) > 0) ∧ ¬ ((-7 : Int) ≥ 0) :=
  ⟨rfl, by decide, by decide⟩

/-- C4 (amended): the decoder constrains header fields only to be parsed
integers: the width and height of a successful decode are exactly the integers
parsed from the two tokens of the (stripped) second line and its max color
the integer parsed from the (stripped) third line — no positivity or sign
bound is enforced on any of them. -/
theorem header_fields_parsed (lines : List String) (img : Image)
    (h : get_image lines = .ok img) :
    ∃ a b, pySplit (pyStrip (lines.getD 1 "")) = [a, b] ∧
      _convert_int a = some img.header.width ∧
      _convert_int b = some img.header.height ∧
      _convert_int (pyStrip (lines.getD 2 "")) = some img.header.max_color := by
  unfold get_image at h
  cases hh : _read_header lines with
  | error e => rw [hh] at h; exact absurd h (by simp)
  | ok hdr =>
    rw [hh] at h
    cases hd : decodePixels hdr.width 0 (_groups_of_3 (pixelTokens lines)) with
    | error e => simp only [hd] at h; exact absurd h (by simp)
    | ok ps =>
      simp only [hd] at h
      obtain rfl : Image.mk hdr ps = img := Except.ok.inj h
      exact read_header_ok lines hdr hh

/-- C4 witness: the amended theorem applied at a concrete valid input. -/
theorem header_fields_parsed_witness :
    ∃ a b, pySplit (pyStrip (["P3", "2 1", "255"].getD 1 "")) = [a, b] ∧
      _convert_int a = some 2 ∧ _convert_int b = some 1 ∧
      _convert_int (pyStrip (["P3", "2 1", "255"].getD 2 "")) = some 255 :=
  header_fields_parsed ["P3", "2 1", "255"] ⟨⟨2, 1, 255⟩, []⟩ rfl

end PpmDiff
